import Mathlib

/-!
# Student API with JWT authentication

A shallow embedding of the in-memory stores (`models/Student.js`, `models/User.js`),
the free-text search route (`routes/students.js`) and the token guard
(`middleware/auth.js`), together with the contracts these functions satisfy.

Conventions of the embedding.

* A JavaScript value is a `Val`.  Numbers with an integral value are `Val.num`
  (unbounded integers: rounding to 53 bits is not modelled), every other finite number
  is `Val.real`, named by the decimal string the runtime prints for it, so that
  `parseInt` of such a number reads that string exactly as the runtime does.
* A plain object is an `Obj`, the list of its own properties in insertion order.
* A module-level array (`students`, `users`) is passed in and returned explicitly.
* A function that can throw returns `Except Err _`; nothing is mutated before a throw,
  so the caller keeps the store it passed in.
* Library calls whose result is not computed by this repository are parameters:
  `parseFloat`, `String.prototype.toLowerCase`, `bcrypt.hash`, `jwt.verify`, and the
  clock behind `new Date()`.
-/

namespace StudentAPI

/-! ## Values -/

/-- JavaScript values that occur in records, payloads and arguments. -/
inductive Val where
  | undefined
  | null
  | bool (b : Bool)
  | num (n : Int)
  | real (repr : String)
  | nan
  | str (s : String)
  | date (ms : Nat)
  deriving DecidableEq, Repr

/-- What a `throw` carries: `new Error(message)` raised by the repository's code, or the
`TypeError` the runtime raises when a method is called on a value that lacks it. -/
inductive Err where
  | error (message : String)
  | typeError
  deriving DecidableEq, Repr

deriving instance DecidableEq for Except

/-- ToBoolean: the values for which `!v` is false. -/
def truthy : Val → Bool
  | .undefined => false
  | .null => false
  | .bool b => b
  | .num n => n != 0
  | .real _ => true
  | .nan => false
  | .str s => s != ""
  | .date _ => true

/-- The operator `===`.  `NaN` differs from itself; two `Date` values are distinct
objects. -/
def strictEq : Val → Val → Bool
  | .undefined, .undefined => true
  | .null, .null => true
  | .bool a, .bool b => a == b
  | .num a, .num b => a == b
  | .real a, .real b => a == b
  | .str a, .str b => a == b
  | _, _ => false

/-- White space skipped by `parseInt` (WhiteSpace and LineTerminator code points). -/
def isStrWhiteSpace (c : Char) : Bool :=
  let n := c.toNat
  n == 9 || n == 10 || n == 11 || n == 12 || n == 13 || n == 32 || n == 160 ||
  n == 0x1680 || (0x2000 ≤ n && n ≤ 0x200A) || n == 0x2028 || n == 0x2029 ||
  n == 0x202F || n == 0x205F || n == 0x3000 || n == 0xFEFF

/-- The value of `c` as a digit in radix `r` (`r` is 10 or 16 here). -/
def digitValue (r : Nat) (c : Char) : Option Nat :=
  let n := c.toNat
  let d : Option Nat :=
    if 48 ≤ n ∧ n ≤ 57 then some (n - 48)
    else if 97 ≤ n ∧ n ≤ 102 then some (n - 87)
    else if 65 ≤ n ∧ n ≤ 70 then some (n - 55)
    else none
  match d with
  | some v => if v < r then some v else none
  | none => none

/-- The longest prefix of radix-`r` digits, as digit values. -/
def takeDigits (r : Nat) : List Char → List Nat
  | [] => []
  | c :: cs =>
    match digitValue r c with
    | some v => v :: takeDigits r cs
    | none => []

/-- The builtin `parseInt(string)` with no radix argument, on the characters of the
string: skip white space, read a sign, read a `0x`/`0X` prefix, read the digits. -/
def parseIntChars (cs : List Char) : Val :=
  let s := cs.dropWhile isStrWhiteSpace
  let signed : Int × List Char :=
    match s with
    | '-' :: rest => (-1, rest)
    | '+' :: rest => (1, rest)
    | _ => (1, s)
  let radixed : Nat × List Char :=
    match signed.2 with
    | '0' :: 'x' :: rest => (16, rest)
    | '0' :: 'X' :: rest => (16, rest)
    | _ => (10, signed.2)
  match takeDigits radixed.1 radixed.2 with
  | [] => Val.nan
  | d :: ds => Val.num (signed.1 * ((d :: ds).foldl (fun acc v => acc * radixed.1 + v) 0 : Nat))

/-- The builtin `parseInt(v)`: `v` is converted to a string and parsed.  The strings
of `undefined`, `null`, booleans, `NaN` and dates start with a letter; the string of an
integral number is its decimal digits (magnitudes from `10^21` on, which the runtime
prints with an exponent, are not modelled). -/
def parseInt : Val → Val
  | .str s => parseIntChars s.toList
  | .num n => Val.num n
  | .real repr => parseIntChars repr.toList
  | _ => Val.nan

/-! ## Objects -/

/-- A plain object: its own properties, in insertion order. -/
abbrev Obj := List (String × Val)

namespace Obj

/-- Property read `o[k]`; a missing property reads as `undefined`. -/
def get (o : Obj) (k : String) : Val :=
  match o.lookup k with
  | some v => v
  | none => Val.undefined

/-- Property definition `o[k] = v`: an existing property keeps its position. -/
def set : Obj → String → Val → Obj
  | [], k, v => [(k, v)]
  | (k', v') :: rest, k, v =>
    if k' = k then (k, v) :: rest else (k', v') :: set rest k v

/-- Spread `...src` into the object being built: each property of `src` is defined on
`target`, in order. -/
def spread (target src : Obj) : Obj :=
  src.foldl (fun acc kv => acc.set kv.1 kv.2) target

/-- The rest pattern `const { [k]: _, ...rest } = o`: every property but `k`. -/
def without (o : Obj) (k : String) : Obj :=
  o.filter (fun kv => kv.1 != k)

end Obj

/-- A module-level array of records (`students`, `users`). -/
abbrev Store := List Obj

/-- `Array.prototype.findIndex`, with `none` for the result `-1`. -/
def findIndex (p : Obj → Bool) : List Obj → Option Nat
  | [] => none
  | x :: xs => if p x then some 0 else (findIndex p xs).map (· + 1)

/-- `String.prototype.includes` on the characters of both strings. -/
def includes (hay needle : List Char) : Bool :=
  hay.tails.any (fun t => needle.isPrefixOf t)

/-- `Array.prototype.filter` with a callback that can throw. -/
def filterE (p : Obj → Except Err Bool) : List Obj → Except Err (List Obj)
  | [] => .ok []
  | x :: xs => do
    let keep ← p x
    let rest ← filterE p xs
    pure (if keep then x :: rest else rest)

/-- `toLowerCase` on strings of ASCII characters (where the builtin changes `A`..`Z`
only); used to evaluate the model on ASCII inputs. -/
def asciiLower (s : String) : String := String.mk (s.toList.map Char.toLower)

/-! ## The student store (`models/Student.js`) -/

namespace Student

/-- The initial value of `students`; the four arguments are the clock readings of the
four `new Date()` calls. -/
def seedStudents (c1 u1 c2 u2 : Nat) : Store :=
  [ [("id", .num 1), ("name", .str "John Doe"), ("email", .str "john.doe@student.edu"),
     ("age", .num 20), ("grade", .str "Sophomore"), ("major", .str "Computer Science"),
     ("gpa", .real "3.8"), ("enrollmentDate", .str "2023-09-01"),
     ("createdAt", .date c1), ("updatedAt", .date u1)],
    [("id", .num 2), ("name", .str "Jane Smith"), ("email", .str "jane.smith@student.edu"),
     ("age", .num 19), ("grade", .str "Freshman"), ("major", .str "Mathematics"),
     ("gpa", .real "3.9"), ("enrollmentDate", .str "2023-09-01"),
     ("createdAt", .date c2), ("updatedAt", .date u2)] ]

/-- `Student.findAll`. -/
def findAll (students : Store) : Store := students

/-- `Student.findById`; `none` is the result `undefined`. -/
def findById (students : Store) (id : Val) : Option Obj :=
  students.find? (fun student => strictEq (student.get "id") (parseInt id))

/-- `Student.findByEmail`. -/
def findByEmail (students : Store) (email : Val) : Option Obj :=
  students.find? (fun student => strictEq (student.get "email") email)

/-- `Student.create`; `tc` and `tu` are the clock readings of its two `new Date()`
calls.  Returns the new array and the new record. -/
def create (parseFloat : Val → Val) (tc tu : Nat) (students : Store) (studentData : Obj) :
    Except Err (Store × Obj) :=
  let name := studentData.get "name"
  let email := studentData.get "email"
  let age := studentData.get "age"
  let grade := studentData.get "grade"
  let major := studentData.get "major"
  let gpa := studentData.get "gpa"
  let enrollmentDate := studentData.get "enrollmentDate"
  match findByEmail students email with
  | some _ => .error (.error "Student with this email already exists")
  | none =>
    let newStudent : Obj :=
      [("id", .num (students.length + 1)), ("name", name), ("email", email),
       ("age", parseInt age), ("grade", grade), ("major", major),
       ("gpa", parseFloat gpa), ("enrollmentDate", enrollmentDate),
       ("createdAt", .date tc), ("updatedAt", .date tu)]
    .ok (students ++ [newStudent], newStudent)

/-- `Student.update`; `now` is the clock reading of `new Date()`.  Returns the new array
and the record written at the found index. -/
def update (now : Nat) (students : Store) (id : Val) (updateData : Obj) :
    Except Err (Store × Obj) :=
  match findIndex (fun student => strictEq (student.get "id") (parseInt id)) students with
  | none => .error (.error "Student not found")
  | some studentIndex =>
    let merged : Obj :=
      (((Obj.spread [] (students.getD studentIndex [])).spread updateData).set
        "id" (parseInt id)).set "updatedAt" (.date now)
    .ok (students.set studentIndex merged, merged)

/-- `Student.delete` (named `delete` in the source).  Returns the new array and the
removed record. -/
def delete (students : Store) (id : Val) : Except Err (Store × Obj) :=
  match findIndex (fun student => strictEq (student.get "id") (parseInt id)) students with
  | none => .error (.error "Student not found")
  | some studentIndex =>
    let deletedStudent := students.getD studentIndex []
    .ok (students.eraseIdx studentIndex, deletedStudent)

/-- One line of the filter callback of `Student.search`:
`!crit || field.toLowerCase().includes(crit.toLowerCase())`.  Calling `toLowerCase` on
a value that is not a string raises a `TypeError`. -/
def fieldMatch (toLowerCase : String → String) (crit field : Val) : Except Err Bool :=
  if !truthy crit then .ok true
  else
    match field, crit with
    | .str f, .str c => .ok (includes (toLowerCase f).toList (toLowerCase c).toList)
    | _, _ => .error .typeError

/-- The filter callback of `Student.search`. -/
def searchMatch (toLowerCase : String → String) (query student : Obj) : Except Err Bool := do
  let nameMatch ← fieldMatch toLowerCase (query.get "name") (student.get "name")
  let majorMatch ← fieldMatch toLowerCase (query.get "major") (student.get "major")
  let gradeMatch ← fieldMatch toLowerCase (query.get "grade") (student.get "grade")
  pure (nameMatch && majorMatch && gradeMatch)

/-- `Student.search`. -/
def search (toLowerCase : String → String) (students : Store) (query : Obj) :
    Except Err (List Obj) :=
  filterE (searchMatch toLowerCase query) students

/-! ### Sequences of calls -/

/-- A call of one of the three mutating operations, with its clock readings. -/
inductive Call where
  | create (tc tu : Nat) (studentData : Obj)
  | update (now : Nat) (id : Val) (updateData : Obj)
  | delete (id : Val)
  deriving DecidableEq, Repr

/-- The array after a call: the one the call returns, or the same one when it throws. -/
def applyCall (parseFloat : Val → Val) (students : Store) : Call → Store
  | .create tc tu studentData =>
    match create parseFloat tc tu students studentData with
    | .ok (students', _) => students'
    | .error _ => students
  | .update now id updateData =>
    match update now students id updateData with
    | .ok (students', _) => students'
    | .error _ => students
  | .delete id =>
    match delete students id with
    | .ok (students', _) => students'
    | .error _ => students

/-- The array after a sequence of calls. -/
def runCalls (parseFloat : Val → Val) (students : Store) (calls : List Call) : Store :=
  calls.foldl (applyCall parseFloat) students

/-- The arrays reachable from the seeded records. -/
def Reachable (parseFloat : Val → Val) (students : Store) : Prop :=
  ∃ c1 u1 c2 u2 calls, students = runCalls parseFloat (seedStudents c1 u1 c2 u2) calls

end Student

/-! ## The free-text search route (`routes/students.js`) -/

/-- What the handler of `GET /search/:query` sends: the `200` body
`{message, query, count, students}`, or the `500` body when `Student.search` throws. -/
inductive SearchReply where
  | completed (query : String) (count : Nat) (students : List Obj)
  | failed
  deriving DecidableEq, Repr

/-- The handler of `router.get('/search/:query')`: the path parameter is passed as all
three criteria of `Student.search`. -/
def searchRoute (toLowerCase : String → String) (students : Store) (query : String) :
    SearchReply :=
  match Student.search toLowerCase students
      [("name", .str query), ("major", .str query), ("grade", .str query)] with
  | .ok found => .completed query found.length found
  | .error _ => .failed

/-! ## The user store (`models/User.js`) -/

namespace User

/-- The initial value of `users`; `t` is the clock reading of `new Date()`. -/
def seedUsers (t : Nat) : Store :=
  [ [("id", .num 1), ("email", .str "admin@example.com"),
     ("password", .str "$2a$10$92IXUNpkjO0rOQ5byMi.Ye4oKoEa3Ro9llC/.og/at2.uheWG/igi"),
     ("role", .str "admin"), ("name", .str "Admin User"), ("createdAt", .date t)] ]

/-- `User.findByEmail`. -/
def findByEmail (users : Store) (email : Val) : Option Obj :=
  users.find? (fun user => strictEq (user.get "email") email)

/-- `User.findById`. -/
def findById (users : Store) (id : Val) : Option Obj :=
  users.find? (fun user => strictEq (user.get "id") (parseInt id))

/-- `User.create`; `hash` is `bcrypt.hash(·, 10)` for this call (it throws on a password
it cannot hash) and `now` the clock reading of `new Date()`.  Returns the new array and the
record handed back to the caller. -/
def create (hash : Val → Except Err Val) (now : Nat) (users : Store) (userData : Obj) :
    Except Err (Store × Obj) :=
  let email := userData.get "email"
  let password := userData.get "password"
  let name := userData.get "name"
  let role := if userData.get "role" = .undefined then .str "user" else userData.get "role"
  match findByEmail users email with
  | some _ => .error (.error "User with this email already exists")
  | none =>
    match hash password with
    | .error e => .error e
    | .ok hashedPassword =>
      let newUser : Obj :=
        [("id", .num (users.length + 1)), ("email", email), ("password", hashedPassword),
         ("name", name), ("role", role), ("createdAt", .date now)]
      let userWithoutPassword := newUser.without "password"
      .ok (users ++ [newUser], userWithoutPassword)

/-- `User.getAll`. -/
def getAll (users : Store) : List Obj :=
  users.map (fun user => user.without "password")

end User

/-! ## The token guard (`middleware/auth.js`) -/

/-- The body sent by `res.status(status).json({ error, message })`. -/
structure Reply where
  status : Nat
  error : String
  message : String
  deriving DecidableEq, Repr

/-- What is thrown inside the `try` block, seen through the one property the `catch`
block reads, `error.name`. -/
structure Thrown where
  name : String
  deriving DecidableEq, Repr

/-- What one run of `authenticateToken` does: the value assigned to `req.user` (if any),
how many times `next` was called, and the response sent (if any). -/
structure Outcome (Claims : Type) where
  user : Option Claims
  nextCalls : Nat
  reply : Option Reply

/-- `String.prototype.split(' ')` on the characters of the string. -/
def splitSpace : List Char → List (List Char)
  | [] => [[]]
  | c :: cs =>
    if c = ' ' then [] :: splitSpace cs
    else
      match splitSpace cs with
      | [] => [[c]]
      | part :: parts => (c :: part) :: parts

/-- The expression `authHeader && authHeader.split(' ')[1]`, where
`req.headers['authorization']` is `undefined` (here `none`) or a string. -/
def bearerToken (authHeader : Option String) : Val :=
  match authHeader with
  | none => .undefined
  | some header =>
    if header = "" then .str ""
    else
      match (splitSpace header.toList)[1]? with
      | some part => .str (String.mk part)
      | none => .undefined

/-- The response of the `catch` block. -/
def rejection (error : Thrown) : Reply :=
  if error.name = "TokenExpiredError" then
    { status := 401, error := "Token expired",
      message := "Your authentication token has expired. Please login again." }
  else
    { status := 403, error := "Invalid token",
      message := "The provided token is invalid or malformed." }

/-- The response sent when no token was found. -/
def noTokenReply : Reply :=
  { status := 401, error := "Access denied",
    message := "No token provided. Please include a valid JWT token in the Authorization header." }

/-- `authenticateToken`.  `verify` is `jwt.verify(·, process.env.JWT_SECRET)`, and
`next` is what calling the callback `next()` does: return, or throw into the enclosing
`try` block. -/
def authenticateToken {Claims : Type} (verify : Val → Except Thrown Claims)
    (next : Except Thrown Unit) (authHeader : Option String) : Outcome Claims :=
  let token := bearerToken authHeader
  if !truthy token then
    { user := none, nextCalls := 0, reply := some noTokenReply }
  else
    match verify token with
    | .ok decoded =>
      match next with
      | .ok _ => { user := some decoded, nextCalls := 1, reply := none }
      | .error error => { user := some decoded, nextCalls := 1, reply := some (rejection error) }
    | .error error => { user := none, nextCalls := 0, reply := some (rejection error) }

/-! ## Inputs used to evaluate the model -/

/-- A valid student payload (the concrete scenario of the specification). -/
def annLee : Obj :=
  [("name", .str "Ann Lee"), ("email", .str "ann@x.edu"), ("age", .num 20),
   ("grade", .str "Sophomore"), ("major", .str "Physics"), ("gpa", .real "3.5"),
   ("enrollmentDate", .str "2024-01-10")]

/-- The seeded array after `Student.delete("1")`: only the record with id 2 is left. -/
def afterDeleteFirst (parseFloat : Val → Val) : Store :=
  Student.runCalls parseFloat (Student.seedStudents 0 0 0 0) [.delete (.str "1")]

/-- The seeded array after `Student.delete("1")` and `Student.create(annLee)`. -/
def afterDeleteFirstCreate (parseFloat : Val → Val) : Store :=
  Student.runCalls parseFloat (Student.seedStudents 0 0 0 0)
    [.delete (.str "1"), .create 1 1 annLee]

/-- The seeded array after `Student.delete("2")` and `Student.create(annLee)`. -/
def afterDeleteSecondCreate (parseFloat : Val → Val) : Store :=
  Student.runCalls parseFloat (Student.seedStudents 0 0 0 0)
    [.delete (.str "2"), .create 1 1 annLee]

/-- The seeded array after `Student.update("2", { email: "john.doe@student.edu" })`. -/
def afterEmailUpdate (parseFloat : Val → Val) : Store :=
  Student.runCalls parseFloat (Student.seedStudents 0 0 0 0)
    [.update 1 (.str "2") [("email", .str "john.doe@student.edu")]]

/-! ## The specification of `search`, in its own words -/

/-- Specification wording: `needle` is a case-insensitive substring of `hay`. -/
def caseInsensitiveSubstring (toLowerCase : String → String) (needle hay : String) : Prop :=
  (toLowerCase needle).toList <:+: (toLowerCase hay).toList

instance (toLowerCase : String → String) (needle hay : String) :
    Decidable (caseInsensitiveSubstring toLowerCase needle hay) := by
  unfold caseInsensitiveSubstring
  infer_instance

/-- Specification wording: an absent criterion is a wildcard, a supplied criterion has to
be a case-insensitive substring of the corresponding field. -/
def criterionHolds (toLowerCase : String → String) (criterion field : Val) : Bool :=
  match criterion with
  | .undefined => true
  | .str c =>
    match field with
    | .str f => decide (caseInsensitiveSubstring toLowerCase c f)
    | _ => false
  | _ => false

/-- Specification wording: the stored records, in store order, for which every supplied
criterion holds. -/
def searchSpec (toLowerCase : String → String) (students : Store) (criteria : Obj) :
    List Obj :=
  students.filter (fun student =>
    criterionHolds toLowerCase (criteria.get "name") (student.get "name") &&
    criterionHolds toLowerCase (criteria.get "major") (student.get "major") &&
    criterionHolds toLowerCase (criteria.get "grade") (student.get "grade"))

/-- A criterion of the criteria object `{name?, major?, grade?}`: absent, or a string. -/
def IsCriterion (v : Val) : Prop :=
  v = .undefined ∨ ∃ s, v = .str s

/-- The data model of a stored student, for the three searched fields: `name`, `major`
and `grade` are strings. -/
def HasStringFields (student : Obj) : Prop :=
  (∃ s, student.get "name" = .str s) ∧ (∃ s, student.get "major" = .str s) ∧
  (∃ s, student.get "grade" = .str s)

/-- A store with the two majors of the specification's example. -/
def twoMajors : Store :=
  [ [("id", .num 1), ("name", .str "Ada"), ("major", .str "Computer Science"),
     ("grade", .str "Junior")],
    [("id", .num 2), ("name", .str "Bob"), ("major", .str "Mathematics"),
     ("grade", .str "Senior")],
    [("id", .num 3), ("name", .str "Cy"), ("major", .str "COMPUTER ENGINEERING"),
     ("grade", .str "Senior")] ]

/-! ## Notions used to state the contracts of the user store and the guard -/

/-- Two user records with the same properties in the same order and the same values,
except possibly for the value of `password`. -/
def SameButPassword (u₁ u₂ : Obj) : Prop :=
  List.Forall₂ (fun a b => a.1 = b.1 ∧ (a.1 ≠ "password" → a.2 = b.2)) u₁ u₂

/-- Two user arrays that differ only in their password hashes. -/
def DifferOnlyInPasswords (users₁ users₂ : Store) : Prop :=
  List.Forall₂ SameButPassword users₁ users₂

/-- The seeded user array with another password hash. -/
def seedUsersRehashed (t : Nat) : Store :=
  [ [("id", .num 1), ("email", .str "admin@example.com"),
     ("password", .str "$2a$10$another"),
     ("role", .str "admin"), ("name", .str "Admin User"), ("createdAt", .date t)] ]

/-- A registration payload. -/
def bobPayload : Obj :=
  [("name", .str "Bob"), ("email", .str "bob@example.com"), ("password", .str "hunter2")]

/-- A stand-in for `bcrypt.hash` used to evaluate the model. -/
def sampleHash (password : Val) : Except Err Val :=
  match password with
  | .str _ => .ok (.str "$2a$10$sample")
  | _ => .error (.error "Illegal arguments")

/-- A stand-in for `jwt.verify` used to evaluate the model: the token `good` decodes,
the token `old` has expired, every other token is invalid. -/
def sampleVerify (token : Val) : Except Thrown Obj :=
  if token = .str "good" then
    .ok [("id", .num 1), ("email", .str "admin@example.com"), ("role", .str "admin")]
  else if token = .str "old" then .error { name := "TokenExpiredError" }
  else .error { name := "JsonWebTokenError" }

/-! ## A non-decreasing clock along a sequence of calls -/

/-- The readings of the clock taken by `calls` are in order, starting not before `t`. -/
def clockOrdered : Nat → List Student.Call → Prop
  | _, [] => True
  | t, .create tc tu _ :: rest => t ≤ tc ∧ tc ≤ tu ∧ clockOrdered tu rest
  | t, .update now _ _ :: rest => t ≤ now ∧ clockOrdered now rest
  | t, .delete _ :: rest => clockOrdered t rest

/-- The last reading of the clock after `calls`, when the last one before was `t`. -/
def lastReading : Nat → List Student.Call → Nat
  | t, [] => t
  | _, .create _ tu _ :: rest => lastReading tu rest
  | _, .update now _ _ :: rest => lastReading now rest
  | t, .delete _ :: rest => lastReading t rest

/-- Every stored record has an `updatedAt` that is a Date not after the reading `t`. -/
def StampedBy (t : Nat) (students : Store) : Prop :=
  ∀ student ∈ students, ∃ u, u ≤ t ∧ student.get "updatedAt" = .date u

/-! ## Lemmas on values, objects and arrays -/

theorem strictEq_eq {a b : Val} (h : strictEq a b = true) : a = b := by
  cases a <;> cases b <;> simp_all [strictEq]

theorem Obj.get_set_self (o : Obj) (k : String) (v : Val) : (o.set k v).get k = v := by
  induction o with
  | nil => simp [Obj.set, Obj.get, List.lookup]
  | cons kv rest ih =>
    obtain ⟨k', v'⟩ := kv
    by_cases hk : k' = k
    · simp [Obj.set, hk, Obj.get, List.lookup]
    · have hne : (k == k') = false := by simpa using fun h => hk h.symm
      simp only [Obj.set, hk, if_false, Obj.get, List.lookup, hne]
      simpa [Obj.get] using ih

theorem Obj.get_set_of_ne (o : Obj) {k k' : String} (v : Val) (h : k' ≠ k) :
    (o.set k v).get k' = o.get k' := by
  induction o with
  | nil =>
    have hne : (k' == k) = false := by simpa using h
    simp [Obj.set, Obj.get, List.lookup, hne]
  | cons kv rest ih =>
    obtain ⟨k₀, v₀⟩ := kv
    by_cases hk : k₀ = k
    · subst hk
      have hne : (k' == k₀) = false := by simpa using h
      simp [Obj.set, Obj.get, List.lookup, hne]
    · simp only [Obj.set, hk, if_false, Obj.get, List.lookup]
      cases hkk : (k' == k₀)
      · simpa [Obj.get] using ih
      · rfl

theorem findIndex_lt {p : Obj → Bool} {xs : List Obj} {i : Nat}
    (h : findIndex p xs = some i) : i < xs.length := by
  induction xs generalizing i with
  | nil => simp [findIndex] at h
  | cons x xs ih =>
    by_cases hp : p x
    · simp [findIndex, hp] at h
      subst h
      simp
    · simp only [findIndex, hp, Bool.false_eq_true, if_false, Option.map_eq_some'] at h
      obtain ⟨j, hj, rfl⟩ := h
      have := ih hj
      simp
      omega

theorem find?_eq_some_findIndex {p : Obj → Bool} {xs : List Obj} {x : Obj}
    (h : xs.find? p = some x) : ∃ i, findIndex p xs = some i ∧ xs[i]? = some x := by
  induction xs with
  | nil => simp at h
  | cons y ys ih =>
    by_cases hp : p y
    · simp [List.find?, hp] at h
      exact ⟨0, by simp [findIndex, hp], by simp [h]⟩
    · simp [List.find?, hp] at h
      obtain ⟨i, hi, hx⟩ := ih h
      exact ⟨i + 1, by simp [findIndex, hp, hi], by simpa using hx⟩

theorem includes_iff (hay needle : List Char) :
    includes hay needle = true ↔ needle <:+: hay := by
  simp only [includes, List.any_eq_true, List.mem_tails, List.isPrefixOf_iff_prefix]
  constructor
  · rintro ⟨t, hsuf, hpre⟩
    exact List.infix_iff_prefix_suffix.mpr ⟨t, hpre, hsuf⟩
  · intro hinf
    obtain ⟨t, hpre, hsuf⟩ := List.infix_iff_prefix_suffix.mp hinf
    exact ⟨t, hsuf, hpre⟩

theorem filterE_ok {p : Obj → Except Err Bool} {q : Obj → Bool} (xs : List Obj)
    (h : ∀ x ∈ xs, p x = .ok (q x)) : filterE p xs = .ok (xs.filter q) := by
  induction xs with
  | nil => rfl
  | cons x xs ih =>
    have hx : p x = .ok (q x) := h x (by simp)
    have hxs : filterE p xs = .ok (xs.filter q) := ih (fun y hy => h y (by simp [hy]))
    cases hq : q x <;> simp [filterE, hx, hxs, hq, bind, Except.bind, pure, Except.pure]

theorem fieldMatch_typed {toLowerCase : String → String} {crit field : Val}
    (hlower : toLowerCase "" = "") (hcrit : IsCriterion crit) (hfield : ∃ f, field = .str f) :
    Student.fieldMatch toLowerCase crit field = .ok (criterionHolds toLowerCase crit field) := by
  obtain ⟨f, rfl⟩ := hfield
  rcases hcrit with rfl | ⟨c, rfl⟩
  · simp [Student.fieldMatch, truthy, criterionHolds]
  · by_cases hc : c = ""
    · subst hc
      simp [Student.fieldMatch, truthy, criterionHolds, caseInsensitiveSubstring, hlower]
    · have hb : includes (toLowerCase f).toList (toLowerCase c).toList
          = decide ((toLowerCase c).toList <:+: (toLowerCase f).toList) := by
        rw [Bool.eq_iff_iff]
        simpa using includes_iff (toLowerCase f).toList (toLowerCase c).toList
      simp only [Student.fieldMatch, truthy, criterionHolds, caseInsensitiveSubstring]
      have hne : (!(c != "")) = false := by simp [hc]
      rw [hne, hb]
      rfl

theorem searchMatch_empty (toLowerCase : String → String) (student : Obj) :
    Student.searchMatch toLowerCase [] student = .ok true := by
  simp [Student.searchMatch, Student.fieldMatch, Obj.get, truthy, bind, Except.bind, pure,
    Except.pure]

theorem findIndex_getElem? {p : Obj → Bool} {xs : List Obj} {i : Nat}
    (h : findIndex p xs = some i) : ∃ x, xs[i]? = some x ∧ p x = true := by
  induction xs generalizing i with
  | nil => simp [findIndex] at h
  | cons y ys ih =>
    by_cases hp : p y
    · simp [findIndex, hp] at h
      subst h
      exact ⟨y, by simp, hp⟩
    · simp only [findIndex, hp, Bool.false_eq_true, if_false, Option.map_eq_some'] at h
      obtain ⟨j, hj, rfl⟩ := h
      obtain ⟨x, hx, hpx⟩ := ih hj
      exact ⟨x, by simpa using hx, hpx⟩

theorem search_typed {toLowerCase : String → String} {students : Store} {criteria : Obj}
    (hlower : toLowerCase "" = "")
    (hcrit : IsCriterion (criteria.get "name") ∧ IsCriterion (criteria.get "major") ∧
      IsCriterion (criteria.get "grade"))
    (hstore : ∀ student ∈ students, HasStringFields student) :
    Student.search toLowerCase students criteria
      = .ok (searchSpec toLowerCase students criteria) := by
  unfold Student.search searchSpec
  apply filterE_ok
  intro student hmem
  obtain ⟨hn, hm, hg⟩ := hstore student hmem
  simp [Student.searchMatch, fieldMatch_typed hlower hcrit.1 hn,
    fieldMatch_typed hlower hcrit.2.1 hm, fieldMatch_typed hlower hcrit.2.2 hg,
    bind, Except.bind, pure, Except.pure]

/-! ## What the operations do where ids are fresh and unique

The three statements below describe the code on the inputs where the id minted by
`Student.create` is not already stored, where at most one stored record has the id given to
`Student.delete`, and what the search route computes. -/

/-- When no stored record has the id `students.length + 1`, `Student.create` of a payload
with a new email stores a record made of the payload's fields, that id and the two clock
readings, and `Student.findById` of its id returns it. -/
theorem create_then_findById_of_fresh_id (parseFloat : Val → Val) (tc tu : Nat)
    (students : Store) (studentData : Obj)
    (hemail : Student.findByEmail students (studentData.get "email") = none)
    (hfresh : ∀ student ∈ students,
      strictEq (student.get "id") (.num (students.length + 1)) = false) :
    ∃ students' newStudent,
      Student.create parseFloat tc tu students studentData = .ok (students', newStudent) ∧
      students' = students ++ [newStudent] ∧
      Student.findById students' (newStudent.get "id") = some newStudent ∧
      newStudent =
        [("id", .num (students.length + 1)), ("name", studentData.get "name"),
         ("email", studentData.get "email"), ("age", parseInt (studentData.get "age")),
         ("grade", studentData.get "grade"), ("major", studentData.get "major"),
         ("gpa", parseFloat (studentData.get "gpa")),
         ("enrollmentDate", studentData.get "enrollmentDate"),
         ("createdAt", .date tc), ("updatedAt", .date tu)] := by
  refine ⟨_, _, by simp only [Student.create, hemail], rfl, ?_, rfl⟩
  have hid : ∀ rest : Obj, Obj.get (("id", Val.num (students.length + 1)) :: rest) "id"
      = .num (students.length + 1) := fun _ => rfl
  have hnone : students.find?
      (fun student => strictEq (student.get "id") (.num (students.length + 1))) = none := by
    rw [List.find?_eq_none]
    intro student hmem
    simp [hfresh student hmem]
  simp only [Student.findById, hid, parseInt, List.find?_append, hnone, Option.none_or]
  simp [List.find?, hid, strictEq]

/-- When at most one stored record has the id given to `Student.delete`, a successful
`Student.delete` is followed by a `Student.findById` that returns `undefined`. -/
theorem delete_then_findById_of_unique_id (students students' : Store) (id : Val)
    (removed : Obj) (hdel : Student.delete students id = .ok (students', removed))
    (huniq : ∀ (i j : Nat) (a b : Obj), students[i]? = some a → students[j]? = some b →
      strictEq (a.get "id") (parseInt id) = true →
      strictEq (b.get "id") (parseInt id) = true → i = j) :
    Student.findById students' id = none := by
  unfold Student.delete at hdel
  cases hidx : findIndex (fun student => strictEq (student.get "id") (parseInt id)) students with
  | none => simp [hidx] at hdel
  | some i =>
    simp only [hidx, Except.ok.injEq, Prod.mk.injEq] at hdel
    obtain ⟨hstore, _⟩ := hdel
    obtain ⟨x, hx, hpx⟩ := findIndex_getElem? hidx
    rw [← hstore, Student.findById, List.find?_eq_none]
    intro y hy hpy
    obtain ⟨j, hji, hj⟩ := List.mem_eraseIdx_iff_getElem?.mp hy
    exact hji (huniq j i y x hj hx hpy hpx)

/-- On records whose `name`, `major` and `grade` are strings, the handler of
`GET /search/:query` answers with the stored students whose name, major and grade all
contain the term case-insensitively. -/
theorem searchRoute_conjunctive (toLowerCase : String → String) (students : Store)
    (query : String) (hlower : toLowerCase "" = "")
    (hstore : ∀ student ∈ students, HasStringFields student) :
    searchRoute toLowerCase students query
      = .completed query
          (students.filter (fun student =>
            criterionHolds toLowerCase (.str query) (student.get "name") &&
            criterionHolds toLowerCase (.str query) (student.get "major") &&
            criterionHolds toLowerCase (.str query) (student.get "grade"))).length
          (students.filter (fun student =>
            criterionHolds toLowerCase (.str query) (student.get "name") &&
            criterionHolds toLowerCase (.str query) (student.get "major") &&
            criterionHolds toLowerCase (.str query) (student.get "grade"))) := by
  have hn : Obj.get [("name", .str query), ("major", .str query), ("grade", .str query)]
      "name" = .str query := rfl
  have hm : Obj.get [("name", .str query), ("major", .str query), ("grade", .str query)]
      "major" = .str query := rfl
  have hg : Obj.get [("name", .str query), ("major", .str query), ("grade", .str query)]
      "grade" = .str query := rfl
  have hcrit : IsCriterion (Obj.get [("name", .str query), ("major", .str query),
        ("grade", .str query)] "name") ∧
      IsCriterion (Obj.get [("name", .str query), ("major", .str query),
        ("grade", .str query)] "major") ∧
      IsCriterion (Obj.get [("name", .str query), ("major", .str query),
        ("grade", .str query)] "grade") :=
    ⟨Or.inr ⟨query, hn⟩, Or.inr ⟨query, hm⟩, Or.inr ⟨query, hg⟩⟩
  simp only [searchRoute, search_typed hlower hcrit hstore, searchSpec, hn, hm, hg]

theorem StampedBy.mono {t t' : Nat} {students : Store} (h : StampedBy t students)
    (htt : t ≤ t') : StampedBy t' students := by
  intro student hmem
  obtain ⟨u, hu, hget⟩ := h student hmem
  exact ⟨u, Nat.le_trans hu htt, hget⟩

theorem stampedBy_create (parseFloat : Val → Val) {t tc tu : Nat} {students : Store}
    (studentData : Obj) (h : StampedBy t students) (htu : t ≤ tu) :
    StampedBy tu (Student.applyCall parseFloat students (.create tc tu studentData)) := by
  cases hfind : Student.findByEmail students (studentData.get "email") with
  | some found =>
    simp only [Student.applyCall, Student.create, hfind]
    exact h.mono htu
  | none =>
    simp only [Student.applyCall, Student.create, hfind]
    intro student hmem
    simp only [List.mem_append, List.mem_singleton] at hmem
    rcases hmem with hold | rfl
    · exact (h.mono htu) student hold
    · exact ⟨tu, Nat.le_refl _, rfl⟩

theorem stampedBy_update (parseFloat : Val → Val) {t now : Nat} {students : Store}
    (id : Val) (updateData : Obj) (h : StampedBy t students) (hnow : t ≤ now) :
    StampedBy now (Student.applyCall parseFloat students (.update now id updateData)) := by
  cases hidx : findIndex (fun student => strictEq (student.get "id") (parseInt id))
      students with
  | none =>
    simp only [Student.applyCall, Student.update, hidx]
    exact h.mono hnow
  | some i =>
    simp only [Student.applyCall, Student.update, hidx]
    intro student hmem
    rcases List.mem_or_eq_of_mem_set hmem with hold | rfl
    · exact (h.mono hnow) student hold
    · exact ⟨now, Nat.le_refl _, Obj.get_set_self _ _ _⟩

theorem stampedBy_delete (parseFloat : Val → Val) {t : Nat} {students : Store}
    (id : Val) (h : StampedBy t students) :
    StampedBy t (Student.applyCall parseFloat students (.delete id)) := by
  cases hidx : findIndex (fun student => strictEq (student.get "id") (parseInt id))
      students with
  | none =>
    simp only [Student.applyCall, Student.delete, hidx]
    exact h
  | some i =>
    simp only [Student.applyCall, Student.delete, hidx]
    intro student hmem
    exact h student (List.mem_of_mem_eraseIdx hmem)

/-- Along a sequence of calls whose clock readings are in order, every stored record keeps
an `updatedAt` that is a Date not after the last reading: the previous `updatedAt` that
`Student.update` overwrites is never after the new one. -/
theorem stampedBy_runCalls (parseFloat : Val → Val) (calls : List Student.Call) :
    ∀ (t : Nat) (students : Store), StampedBy t students → clockOrdered t calls →
      StampedBy (lastReading t calls) (Student.runCalls parseFloat students calls) := by
  induction calls with
  | nil => intro t students h _; exact h
  | cons call rest ih =>
    intro t students h hord
    cases call with
    | create tc tu studentData =>
      obtain ⟨h1, h2, h3⟩ := hord
      exact ih tu _ (stampedBy_create parseFloat studentData h (Nat.le_trans h1 h2)) h3
    | update now id updateData =>
      obtain ⟨h1, h2⟩ := hord
      exact ih now _ (stampedBy_update parseFloat id updateData h h1) h2
    | delete id =>
      exact ih t _ (stampedBy_delete parseFloat id h) hord

theorem stampedBy_seedStudents (c1 u1 c2 u2 : Nat) :
    StampedBy (max u1 u2) (Student.seedStudents c1 u1 c2 u2) := by
  intro student hmem
  simp only [Student.seedStudents, List.mem_cons, List.mem_singleton, List.not_mem_nil,
    or_false] at hmem
  rcases hmem with rfl | rfl
  · exact ⟨u1, Nat.le_max_left _ _, rfl⟩
  · exact ⟨u2, Nat.le_max_right _ _, rfl⟩

/-! ## The student store: contracts -/

/-- C1, evaluated where it fails.  After `Student.delete("1")` the seeded array holds one
record, with id 2.  `Student.create` of a valid payload with a fresh email succeeds and
gives the new record the id `students.length + 1 = 2`; `Student.findById` of that id then
returns the older record with id 2 (Jane Smith), not the record just created (Ann Lee). -/
theorem create_then_findById_returns_older_record (parseFloat : Val → Val) :
    Student.Reachable parseFloat (afterDeleteFirst parseFloat) ∧
    Student.findByEmail (afterDeleteFirst parseFloat) (annLee.get "email") = none ∧
    ∃ students' newStudent,
      Student.create parseFloat 1 1 (afterDeleteFirst parseFloat) annLee
        = .ok (students', newStudent) ∧
      newStudent.get "id" = .num 2 ∧
      newStudent.get "name" = .str "Ann Lee" ∧
      (Student.findById students' (newStudent.get "id")).map (fun r => r.get "name")
        = some (.str "Jane Smith") :=
  ⟨⟨0, 0, 0, 0, _, rfl⟩, rfl, _, _, rfl, rfl, rfl, rfl⟩

/-- C2, evaluated where it fails.  After `Student.delete("1")` and a `Student.create`, two
stored records have id 2.  `Student.delete("2")` succeeds and removes the first of them
(Jane Smith); `Student.findById("2")` called next still returns a record (Ann Lee). -/
theorem delete_then_findById_finds_duplicate (parseFloat : Val → Val) :
    Student.Reachable parseFloat (afterDeleteFirstCreate parseFloat) ∧
    ∃ students' removed,
      Student.delete (afterDeleteFirstCreate parseFloat) (.str "2") = .ok (students', removed) ∧
      removed.get "name" = .str "Jane Smith" ∧
      (Student.findById students' (.str "2")).map (fun r => r.get "name")
        = some (.str "Ann Lee") :=
  ⟨⟨0, 0, 0, 0, _, rfl⟩, _, _, rfl, rfl, rfl⟩

/-- C4, evaluated where it fails.  After `Student.delete("1")` and a `Student.create`, the
two stored records both have id 2; and after `Student.delete("2")` and a
`Student.create`, the id 2 of the deleted record (Jane Smith) is assigned to the new one
(Ann Lee). -/
theorem ids_repeat_after_delete (parseFloat : Val → Val) :
    Student.Reachable parseFloat (afterDeleteFirstCreate parseFloat) ∧
    Student.Reachable parseFloat (afterDeleteSecondCreate parseFloat) ∧
    (afterDeleteFirstCreate parseFloat).map (fun r => (r.get "id", r.get "name"))
      = [(.num 2, .str "Jane Smith"), (.num 2, .str "Ann Lee")] ∧
    (afterDeleteSecondCreate parseFloat).map (fun r => (r.get "id", r.get "name"))
      = [(.num 1, .str "John Doe"), (.num 2, .str "Ann Lee")] :=
  ⟨⟨0, 0, 0, 0, _, rfl⟩, ⟨0, 0, 0, 0, _, rfl⟩, rfl, rfl⟩

/-- C5, evaluated where it fails.  `Student.update("2", { email: "john.doe@student.edu" })`
on the seeded array succeeds, and afterwards both stored records have the email
`john.doe@student.edu`. -/
theorem update_duplicates_email (parseFloat : Val → Val) :
    Student.Reachable parseFloat (afterEmailUpdate parseFloat) ∧
    (∃ students' updated,
      Student.update 1 (Student.seedStudents 0 0 0 0) (.str "2")
        [("email", .str "john.doe@student.edu")] = .ok (students', updated)) ∧
    (afterEmailUpdate parseFloat).map (fun r => (r.get "id", r.get "email"))
      = [(.num 1, .str "john.doe@student.edu"), (.num 2, .str "john.doe@student.edu")] :=
  ⟨⟨0, 0, 0, 0, _, rfl⟩, ⟨_, _, rfl⟩, rfl⟩

/-- C3.  When the payload's email is strictly equal (`===`) to the email of a stored
student, `Student.create` throws `Student with this email already exists`, whatever the
other fields and the clock are, and the array is the same after the call. -/
theorem create_duplicate_email_rejected (parseFloat : Val → Val) (tc tu : Nat)
    (students : Store) (studentData : Obj)
    (h : ∃ student ∈ students,
      strictEq (student.get "email") (studentData.get "email") = true) :
    Student.create parseFloat tc tu students studentData
      = .error (.error "Student with this email already exists") ∧
    Student.applyCall parseFloat students (.create tc tu studentData) = students := by
  obtain ⟨student, hmem, heq⟩ := h
  have hfind : ∃ found, Student.findByEmail students (studentData.get "email") = some found := by
    cases hf : Student.findByEmail students (studentData.get "email") with
    | some found => exact ⟨found, rfl⟩
    | none =>
      simp only [Student.findByEmail, List.find?_eq_none] at hf
      exact absurd heq (hf student hmem)
  obtain ⟨found, hfound⟩ := hfind
  have hcreate : Student.create parseFloat tc tu students studentData
      = .error (.error "Student with this email already exists") := by
    simp [Student.create, hfound]
  exact ⟨hcreate, by simp [Student.applyCall, hcreate]⟩

theorem create_duplicate_email_rejected_witness :
    (∃ student ∈ Student.seedStudents 0 0 0 0,
      strictEq (student.get "email")
        (Obj.get [("name", .str "Other"), ("email", .str "jane.smith@student.edu")] "email")
        = true) ∧
    Student.create (fun v => v) 5 6 (Student.seedStudents 0 0 0 0)
        [("name", .str "Other"), ("email", .str "jane.smith@student.edu")]
      = .error (.error "Student with this email already exists") ∧
    Student.applyCall (fun v => v) (Student.seedStudents 0 0 0 0)
        (.create 5 6 [("name", .str "Other"), ("email", .str "jane.smith@student.edu")])
      = Student.seedStudents 0 0 0 0 :=
  have h : ∃ student ∈ Student.seedStudents 0 0 0 0,
      strictEq (student.get "email")
        (Obj.get [("name", .str "Other"), ("email", .str "jane.smith@student.edu")] "email")
        = true :=
    ⟨(Student.seedStudents 0 0 0 0).getD 1 [], by decide, by decide⟩
  ⟨h, create_duplicate_email_rejected (fun v => v) 5 6 _ _ h⟩

/-- C6.  When `id` matches a stored student (`old` is the record `Student.findById`
returns for it), `Student.update` succeeds for every partial payload, also one with its
own `id` or `updatedAt`: it writes a record at the index of `old` whose `id` is the `id`
of `old` and whose `updatedAt` is the current clock reading `now`; when the previous
`updatedAt` is an earlier reading `t ≤ now` of the clock, the new one is not before it. -/
theorem update_keeps_id_and_stamps (now : Nat) (students : Store) (id : Val)
    (updateData old : Obj) (h : Student.findById students id = some old) :
    ∃ i merged,
      Student.update now students id updateData = .ok (students.set i merged, merged) ∧
      students[i]? = some old ∧
      (students.set i merged)[i]? = some merged ∧
      merged.get "id" = old.get "id" ∧
      merged.get "updatedAt" = .date now ∧
      ∀ t, old.get "updatedAt" = .date t → t ≤ now →
        ∃ t', merged.get "updatedAt" = .date t' ∧ t ≤ t' := by
  obtain ⟨i, hi, hold⟩ := find?_eq_some_findIndex h
  have hlt : i < students.length := findIndex_lt hi
  have hmatch : strictEq (old.get "id") (parseInt id) = true := by
    have := List.find?_some h
    simpa using this
  refine ⟨i, (((Obj.spread [] (students.getD i [])).spread updateData).set
      "id" (parseInt id)).set "updatedAt" (.date now),
    by simp only [Student.update, hi], hold, ?_, ?_, ?_, ?_⟩
  · simp [List.getElem?_set, hlt]
  · rw [Obj.get_set_of_ne _ _ (by decide), Obj.get_set_self]
    exact (strictEq_eq hmatch).symm
  · rw [Obj.get_set_self]
  · intro t _ ht
    exact ⟨now, by rw [Obj.get_set_self], ht⟩

theorem update_keeps_id_and_stamps_witness :
    Student.findById (Student.seedStudents 3 4 5 6) (.str "2")
      = some ((Student.seedStudents 3 4 5 6).getD 1 []) ∧
    ∃ i merged,
      Student.update 9 (Student.seedStudents 3 4 5 6) (.str "2")
          [("id", .num 77), ("updatedAt", .date 0), ("gpa", .real "3.6")]
        = .ok ((Student.seedStudents 3 4 5 6).set i merged, merged) ∧
      (Student.seedStudents 3 4 5 6)[i]? = some ((Student.seedStudents 3 4 5 6).getD 1 []) ∧
      ((Student.seedStudents 3 4 5 6).set i merged)[i]? = some merged ∧
      merged.get "id" = ((Student.seedStudents 3 4 5 6).getD 1 []).get "id" ∧
      merged.get "updatedAt" = .date 9 ∧
      ∀ t, ((Student.seedStudents 3 4 5 6).getD 1 []).get "updatedAt" = .date t → t ≤ 9 →
        ∃ t', merged.get "updatedAt" = .date t' ∧ t ≤ t' :=
  ⟨by decide,
   update_keeps_id_and_stamps 9 (Student.seedStudents 3 4 5 6) (.str "2")
     [("id", .num 77), ("updatedAt", .date 0), ("gpa", .real "3.6")] _ (by decide)⟩

/-- C8, evaluated where it fails.  On the seeded array, `GET /search/John` answers with an
empty list, although the name of the stored student John Doe contains the term
case-insensitively: the handler requires the term in the name, the major and the grade
at once. -/
theorem searchRoute_requires_every_field :
    searchRoute asciiLower (Student.seedStudents 0 0 0 0) "John" = .completed "John" 0 [] ∧
    ∃ student ∈ Student.seedStudents 0 0 0 0,
      student.get "name" = .str "John Doe" ∧
      includes (asciiLower "John Doe").toList (asciiLower "John").toList = true :=
  ⟨by decide, (Student.seedStudents 0 0 0 0).getD 0 [], by decide, by decide, by decide⟩

/-- C7.  For criteria that are absent or strings and stored records whose `name`,
`major` and `grade` are strings, `Student.search` returns exactly the stored students, in
store order, for which every supplied criterion is a case-insensitive substring of the
corresponding field (`searchSpec`), an absent criterion constraining nothing; and for
every array, `search({})` returns the whole array, the result of `findAll`. -/
theorem search_returns_matching_students (toLowerCase : String → String) (students : Store) :
    (∀ criteria : Obj,
      toLowerCase "" = "" →
      (IsCriterion (criteria.get "name") ∧ IsCriterion (criteria.get "major") ∧
        IsCriterion (criteria.get "grade")) →
      (∀ student ∈ students, HasStringFields student) →
      Student.search toLowerCase students criteria
        = .ok (searchSpec toLowerCase students criteria)) ∧
    Student.search toLowerCase students [] = .ok (Student.findAll students) := by
  constructor
  · intro criteria hlower hcrit hstore
    exact search_typed hlower hcrit hstore
  · have h := filterE_ok (p := Student.searchMatch toLowerCase []) (q := fun _ => true)
      students (fun x _ => searchMatch_empty toLowerCase x)
    simpa [Student.search, Student.findAll] using h

theorem search_returns_matching_students_witness :
    asciiLower "" = "" ∧
    (IsCriterion (Obj.get [("major", .str "comp")] "name") ∧
      IsCriterion (Obj.get [("major", .str "comp")] "major") ∧
      IsCriterion (Obj.get [("major", .str "comp")] "grade")) ∧
    (∀ student ∈ twoMajors, HasStringFields student) ∧
    Student.search asciiLower twoMajors [("major", .str "comp")]
      = .ok (searchSpec asciiLower twoMajors [("major", .str "comp")]) ∧
    (searchSpec asciiLower twoMajors [("major", .str "comp")]).map (fun r => r.get "major")
      = [.str "Computer Science", .str "COMPUTER ENGINEERING"] :=
  have hlower : asciiLower "" = "" := by decide
  have hcrit : IsCriterion (Obj.get [("major", .str "comp")] "name") ∧
      IsCriterion (Obj.get [("major", .str "comp")] "major") ∧
      IsCriterion (Obj.get [("major", .str "comp")] "grade") :=
    ⟨Or.inl (by decide), Or.inr ⟨"comp", by decide⟩, Or.inl (by decide)⟩
  have hstore : ∀ student ∈ twoMajors, HasStringFields student := by
    intro student hmem
    simp only [twoMajors, List.mem_cons, List.mem_singleton, List.not_mem_nil, or_false] at hmem
    rcases hmem with rfl | rfl | rfl
    · exact ⟨⟨"Ada", by decide⟩, ⟨"Computer Science", by decide⟩, ⟨"Junior", by decide⟩⟩
    · exact ⟨⟨"Bob", by decide⟩, ⟨"Mathematics", by decide⟩, ⟨"Senior", by decide⟩⟩
    · exact ⟨⟨"Cy", by decide⟩, ⟨"COMPUTER ENGINEERING", by decide⟩, ⟨"Senior", by decide⟩⟩
  ⟨hlower, hcrit, hstore,
   (search_returns_matching_students asciiLower twoMajors).1 _ hlower hcrit hstore,
   by decide⟩

/-! ## The user store: contracts -/

theorem Obj.lookup_without_self (o : Obj) (k : String) : (o.without k).lookup k = none := by
  induction o with
  | nil => rfl
  | cons kv rest ih =>
    obtain ⟨k', v'⟩ := kv
    by_cases hk : k' = k
    · simpa [Obj.without, hk] using ih
    · have hne : (k == k') = false := by simpa using fun h => hk h.symm
      simpa [Obj.without, hk, List.lookup, hne] using ih

theorem Obj.lookup_without_of_ne (o : Obj) {k k' : String} (h : k' ≠ k) :
    (o.without k).lookup k' = o.lookup k' := by
  induction o with
  | nil => rfl
  | cons kv rest ih =>
    obtain ⟨k₀, v₀⟩ := kv
    by_cases hk : k₀ = k
    · subst hk
      have hne : (k' == k₀) = false := by simpa using h
      simpa [Obj.without, List.lookup, hne] using ih
    · cases hkk : (k' == k₀)
      · simpa [Obj.without, hk, List.lookup, hkk] using ih
      · simp [Obj.without, hk, List.lookup, hkk]

theorem without_password_congr {u₁ u₂ : Obj} (h : SameButPassword u₁ u₂) :
    u₁.without "password" = u₂.without "password" := by
  unfold SameButPassword at h
  induction h with
  | nil => rfl
  | @cons a b l₁ l₂ hab _ ih =>
    obtain ⟨ka, va⟩ := a
    obtain ⟨kb, vb⟩ := b
    obtain ⟨hkey, hval⟩ := hab
    simp only at hkey hval
    subst hkey
    by_cases hk : ka = "password"
    · simpa [Obj.without, hk] using ih
    · have hv := hval hk
      subst hv
      simpa [Obj.without, hk] using ih

/-- C10.  For every user array: `User.getAll` returns, position by position, the stored
user without a `password` property and with every other property unchanged;
`User.create` succeeds when the email is new and the password can be hashed, and whenever
it succeeds the record it returns is the record it stored, without the `password`
property and with every other property unchanged; and two arrays that differ only in
their password hashes have the same `getAll` result. -/
theorem password_never_returned (users : Store) :
    (User.getAll users).length = users.length ∧
    (∀ (i : Nat) (user : Obj), users[i]? = some user →
      ∃ pub : Obj, (User.getAll users)[i]? = some pub ∧ pub.lookup "password" = none ∧
        ∀ k, k ≠ "password" → pub.lookup k = user.lookup k) ∧
    (∀ hash now userData hashed,
      User.findByEmail users (userData.get "email") = none →
      hash (userData.get "password") = .ok hashed →
      ∃ users' returned, User.create hash now users userData = .ok (users', returned)) ∧
    (∀ hash now userData (users' : Store) (returned : Obj),
      User.create hash now users userData = .ok (users', returned) →
      ∃ stored : Obj, users' = users ++ [stored] ∧ returned.lookup "password" = none ∧
        ∀ k, k ≠ "password" → returned.lookup k = stored.lookup k) ∧
    (∀ users₂, DifferOnlyInPasswords users users₂ → User.getAll users = User.getAll users₂) := by
  refine ⟨by simp [User.getAll], ?_, ?_, ?_, ?_⟩
  · intro i user hi
    refine ⟨user.without "password", by simp [User.getAll, hi],
      Obj.lookup_without_self _ _, fun k hk => Obj.lookup_without_of_ne _ hk⟩
  · intro hash now userData hashed hfresh hhash
    simp [User.create, hfresh, hhash]
  · intro hash now userData users' returned hcreate
    unfold User.create at hcreate
    cases hfind : User.findByEmail users (userData.get "email") with
    | some found => simp [hfind] at hcreate
    | none =>
      cases hhash : hash (userData.get "password") with
      | error e => simp [hfind, hhash] at hcreate
      | ok hashed =>
        simp only [hfind, hhash, Except.ok.injEq, Prod.mk.injEq] at hcreate
        obtain ⟨hstore, hret⟩ := hcreate
        refine ⟨_, hstore.symm, ?_, ?_⟩
        · rw [← hret]
          exact Obj.lookup_without_self _ _
        · intro k hk
          rw [← hret]
          exact Obj.lookup_without_of_ne _ hk
  · intro users₂ hdiff
    unfold DifferOnlyInPasswords at hdiff
    induction hdiff with
    | nil => rfl
    | cons hab _ ih =>
      simp only [User.getAll, List.map_cons, List.cons.injEq] at ih ⊢
      exact ⟨without_password_congr hab, ih⟩

theorem password_never_returned_witness :
    (User.seedUsers 0)[0]? = some ((User.seedUsers 0).getD 0 []) ∧
    (∃ pub : Obj, (User.getAll (User.seedUsers 0))[0]? = some pub ∧
      pub.lookup "password" = none ∧
      ∀ k, k ≠ "password" → pub.lookup k = ((User.seedUsers 0).getD 0 []).lookup k) ∧
    (∃ users' returned, User.create sampleHash 7 (User.seedUsers 0) bobPayload
      = .ok (users', returned)) ∧
    DifferOnlyInPasswords (User.seedUsers 0) (seedUsersRehashed 0) ∧
    User.getAll (User.seedUsers 0) = User.getAll (seedUsersRehashed 0) :=
  have hdiff : DifferOnlyInPasswords (User.seedUsers 0) (seedUsersRehashed 0) := by
    unfold DifferOnlyInPasswords SameButPassword User.seedUsers seedUsersRehashed
    refine List.Forall₂.cons ?_ List.Forall₂.nil
    repeat first
      | exact List.Forall₂.nil
      | refine List.Forall₂.cons ⟨rfl, by decide⟩ ?_
  ⟨by decide,
   (password_never_returned (User.seedUsers 0)).2.1 0 _ (by decide),
   (password_never_returned (User.seedUsers 0)).2.2.1 sampleHash 7 bobPayload
     (.str "$2a$10$sample") (by decide) (by decide),
   hdiff,
   (password_never_returned (User.seedUsers 0)).2.2.2.2 _ hdiff⟩

/-! ## The token guard: contract -/

/-- C9.  The decision table of `authenticateToken`.  With no bearer token (header
missing, no second space-separated part, or an empty one) the response is 401 and `next`
is not called.  With a token that verifies, `req.user` is the decoded claims and `next` is
called once, and no response is sent when that call returns.  With a token whose
verification throws `TokenExpiredError` the response is 401 `Token expired`, with any
other verification failure it is 403, and `next` is not called in either case. -/
theorem authenticateToken_decision_table {Claims : Type}
    (verify : Val → Except Thrown Claims) (next : Except Thrown Unit)
    (authHeader : Option String) :
    ((authHeader = none ∨
        ∃ header, authHeader = some header ∧ (splitSpace header.toList)[1]? = none) →
      truthy (bearerToken authHeader) = false) ∧
    (truthy (bearerToken authHeader) = false →
      authenticateToken verify next authHeader
        = { user := none, nextCalls := 0,
            reply := some { status := 401, error := "Access denied",
                            message := noTokenReply.message } }) ∧
    (∀ decoded, truthy (bearerToken authHeader) = true →
      verify (bearerToken authHeader) = .ok decoded →
      (authenticateToken verify next authHeader).user = some decoded ∧
      (authenticateToken verify next authHeader).nextCalls = 1 ∧
      (next = .ok () → (authenticateToken verify next authHeader).reply = none)) ∧
    (∀ error, truthy (bearerToken authHeader) = true →
      verify (bearerToken authHeader) = .error error →
      error.name = "TokenExpiredError" →
      authenticateToken verify next authHeader
        = { user := none, nextCalls := 0,
            reply := some { status := 401, error := "Token expired",
                            message := "Your authentication token has expired. Please login again." } }) ∧
    (∀ error, truthy (bearerToken authHeader) = true →
      verify (bearerToken authHeader) = .error error →
      error.name ≠ "TokenExpiredError" →
      authenticateToken verify next authHeader
        = { user := none, nextCalls := 0,
            reply := some { status := 403, error := "Invalid token",
                            message := "The provided token is invalid or malformed." } }) := by
  refine ⟨?_, ?_, ?_, ?_, ?_⟩
  · rintro (rfl | ⟨header, rfl, hpart⟩)
    · rfl
    · by_cases hh : header = ""
      · simp [bearerToken, hh, truthy]
      · have htoken : bearerToken (some header) = .undefined := by
          simp only [bearerToken, hh, if_false]
          rw [hpart]
        rw [htoken]
        rfl
  · intro hfalsy
    simp [authenticateToken, hfalsy, noTokenReply]
  · intro decoded htruthy hverify
    cases next with
    | ok u => simp [authenticateToken, htruthy, hverify]
    | error e => simp [authenticateToken, htruthy, hverify]
  · intro error htruthy hverify hname
    simp [authenticateToken, htruthy, hverify, rejection, hname]
  · intro error htruthy hverify hname
    simp [authenticateToken, htruthy, hverify, rejection, hname]

theorem authenticateToken_decision_table_witness :
    ((splitSpace "Bearer".toList)[1]? = none ∧
      authenticateToken sampleVerify (.ok ()) (some "Bearer")
        = { user := none, nextCalls := 0,
            reply := some { status := 401, error := "Access denied",
                            message := noTokenReply.message } }) ∧
    (sampleVerify (bearerToken (some "Bearer good"))
        = .ok [("id", .num 1), ("email", .str "admin@example.com"), ("role", .str "admin")] ∧
      (authenticateToken sampleVerify (.ok ()) (some "Bearer good")).user
        = some [("id", .num 1), ("email", .str "admin@example.com"), ("role", .str "admin")] ∧
      (authenticateToken sampleVerify (.ok ()) (some "Bearer good")).nextCalls = 1 ∧
      (authenticateToken sampleVerify (.ok ()) (some "Bearer good")).reply = none) ∧
    (sampleVerify (bearerToken (some "Bearer old")) = .error { name := "TokenExpiredError" } ∧
      authenticateToken sampleVerify (.ok ()) (some "Bearer old")
        = { user := none, nextCalls := 0,
            reply := some { status := 401, error := "Token expired",
                            message := "Your authentication token has expired. Please login again." } }) ∧
    (sampleVerify (bearerToken (some "Bearer junk")) = .error { name := "JsonWebTokenError" } ∧
      authenticateToken sampleVerify (.ok ()) (some "Bearer junk")
        = { user := none, nextCalls := 0,
            reply := some { status := 403, error := "Invalid token",
                            message := "The provided token is invalid or malformed." } }) :=
  have hnone : (splitSpace "Bearer".toList)[1]? = none := by decide
  have hgood := (authenticateToken_decision_table sampleVerify (.ok ())
    (some "Bearer good")).2.2.1 _ (by decide) (by decide)
  ⟨⟨hnone,
    (authenticateToken_decision_table sampleVerify (.ok ()) (some "Bearer")).2.1
      ((authenticateToken_decision_table sampleVerify (.ok ()) (some "Bearer")).1
        (Or.inr ⟨"Bearer", rfl, hnone⟩))⟩,
   ⟨by decide, hgood.1, hgood.2.1, hgood.2.2 rfl⟩,
   ⟨by decide,
    (authenticateToken_decision_table sampleVerify (.ok ()) (some "Bearer old")).2.2.2.1
      { name := "TokenExpiredError" } (by decide) (by decide) rfl⟩,
   ⟨by decide,
    (authenticateToken_decision_table sampleVerify (.ok ()) (some "Bearer junk")).2.2.2.2
      { name := "JsonWebTokenError" } (by decide) (by decide) (by decide)⟩⟩

end StudentAPI
